import Mathlib

/-!
Verification development for the grizabella tri-layer knowledge engine.

The repository ships its test-suite and the MCP server under `src/`, while the
core package modules (`grizabella.core.*`, `grizabella.db_layers.*`) are not
present.  Where a claim is decided by such a missing module, the definitions
below are modelled from the specification (each such definition's doc comment
starts with `Modelled from the spec:`).  `src/grizabella/mcp/server.py` is
present and is embedded directly.
-/

namespace Grizabella

/-! ### Association-list helpers (shared by several embedded components) -/

/-- Remove every binding of key `k` from an association list. -/
def assocErase {α : Type} (l : List (String × α)) (k : String) : List (String × α) :=
  l.filter (fun p => p.1 != k)

/-- Set key `k` to `v` in an association list, dropping older bindings. -/
def assocSet {α : Type} (l : List (String × α)) (k : String) (v : α) : List (String × α) :=
  (k, v) :: assocErase l k

/-! ### Query model (spec §4.8, `grizabella.core.query_models`) -/

/-- Modelled from the spec: the Boolean operator of a `LogicalGroup`
(missing module `grizabella.core.query_models`). -/
inductive LogicalOperator
  | AND
  | OR
deriving Repr, DecidableEq

/-- Modelled from the spec: a relational predicate
`RelationalFilter{property, operator, value}` (spec §4.2). -/
structure RelationalFilter where
  property_name : String
  op : String
  value : String
deriving Repr, DecidableEq

/-- Modelled from the spec: an `EmbeddingSearchClause {ed_name, limit}`
(spec §4.8; the similarity payload itself is irrelevant to planning shape). -/
structure EmbeddingSearchClause where
  embedding_definition_name : String
  limit : Nat
deriving Repr, DecidableEq

/-- Modelled from the spec: a `GraphTraversalClause` (spec §4.4). -/
structure GraphTraversalClause where
  relation_type_name : String
  outgoing : Bool
  target_object_type_name : String
deriving Repr, DecidableEq

/-- Modelled from the spec: the leaf `QueryComponent` fixing a primary
object type and carrying relational / embedding / graph sub-clauses. -/
structure QueryComponent where
  object_type_name : String
  relational_filters : List RelationalFilter := []
  embedding_searches : List EmbeddingSearchClause := []
  graph_traversals : List GraphTraversalClause := []
deriving Repr, DecidableEq

/-- Modelled from the spec: `Clause = QueryComponent | LogicalGroup | NotClause`
(spec §4.8, §9). -/
inductive QueryClause
  | component (qc : QueryComponent)
  | group (op : LogicalOperator) (clauses : List QueryClause)
  | notClause (clause : QueryClause)
deriving Repr

/-- Modelled from the spec: a `ComplexQuery` is either the legacy
`components` list (implicit AND) or a `query_root` clause tree. -/
structure ComplexQuery where
  components : Option (List QueryComponent)
  query_root : Option QueryClause

/-- Modelled from the spec: the model validator run at `ComplexQuery`
construction time (missing module `grizabella.core.query_models`) — rejects
a query that sets both `components` and `query_root`, and one that sets
neither; the error strings are those asserted by
`src/tests/unit/core/test_query_models.py`. -/
def ComplexQuery.validate (components : Option (List QueryComponent))
    (query_root : Option QueryClause) : Except String ComplexQuery :=
  match components, query_root with
  | some _, some _ => .error "Cannot specify both a components and a query_root field"
  | none, none => .error "Must specify either a components or a query_root field"
  | c, q => .ok ⟨c, q⟩

/-! ### Planned query tree (spec §4.8, `grizabella.core.query_engine`) -/

/-- Modelled from the spec: the substrate kind of a planned step
(`sqlite_filter`, `lancedb_search`, `kuzu_traverse`). -/
inductive StepKind
  | sqliteFilter
  | lancedbSearch
  | kuzuTraverse
deriving Repr, DecidableEq

/-- Modelled from the spec: one `PlannedStep`, tagged with the index of the
step whose output ids feed it (`none` = unconstrained). -/
structure PlannedStep where
  kind : StepKind
  inputFrom : Option Nat
deriving Repr, DecidableEq

/-- Modelled from the spec: the mirror tree of planned nodes —
`PlannedComponentExecution`, `PlannedLogicalGroup`, `PlannedNotClause`. -/
inductive PlannedClause
  | component (component_index : Nat) (object_type_name : String)
      (steps : List PlannedStep) (original_component : QueryComponent)
  | group (op : LogicalOperator) (clauses : List PlannedClause)
  | notClause (clause : PlannedClause)
deriving Repr

/-- Modelled from the spec: the primary object type of a planned clause,
used by `PlannedNotClause` to pick the universe for set difference. -/
def PlannedClause.primaryType : PlannedClause → String
  | .component _ t _ _ => t
  | .group _ (c :: _) => c.primaryType
  | .group _ [] => ""
  | .notClause c => c.primaryType

/-! ### Query Planner (spec §4.8, `grizabella.core.query_engine.QueryPlanner`) -/

/-- Modelled from the spec: within a leaf component the planner orders steps
relational filters first, then graph traversals, then embedding searches with
pushed-down id filters last; each step after the first is fed the id set of
the step before it. -/
def planSteps (qc : QueryComponent) : List PlannedStep :=
  let kinds : List StepKind :=
    qc.relational_filters.map (fun _ => StepKind.sqliteFilter)
      ++ qc.graph_traversals.map (fun _ => StepKind.kuzuTraverse)
      ++ qc.embedding_searches.map (fun _ => StepKind.lancedbSearch)
  kinds.enum.map (fun p => ⟨p.2, if p.1 = 0 then none else some (p.1 - 1)⟩)

mutual

/-- Modelled from the spec: the planner walks the logical tree producing the
mirror tree of planned nodes, assigning consecutive component indices
left-to-right; returns the planned node and the next free index. -/
def planClause : QueryClause → Nat → PlannedClause × Nat
  | .component qc, n => (.component n qc.object_type_name (planSteps qc) qc, n + 1)
  | .group op cs, n =>
      let r := planList cs n
      (.group op r.1, r.2)
  | .notClause c, n =>
      let r := planClause c n
      (.notClause r.1, r.2)

/-- Modelled from the spec: plan a list of sibling clauses left-to-right,
threading the component-index counter. -/
def planList : List QueryClause → Nat → List PlannedClause × Nat
  | [], n => ([], n)
  | c :: cs, n =>
      let r := planClause c n
      let rs := planList cs r.2
      (r.1 :: rs.1, rs.2)

end

/-- Modelled from the spec: `ComplexQuery` planning entry point — if the
legacy `components` field is set, wrap it as `LogicalGroup{AND, components}`
and plan that; otherwise plan `query_root`. -/
def planComplexQuery (components : Option (List QueryComponent))
    (query_root : Option QueryClause) : Option PlannedClause :=
  match components, query_root with
  | some cs, _ => some (planClause (.group .AND (cs.map .component)) 0).1
  | none, some root => some (planClause root 0).1
  | none, none => none

/-! ### Query Executor (spec §4.9) -/

/-- Modelled from the spec: the executor's environment — the id set produced
by each leaf component (the tests drive `_execute_component` through exactly
this interface) and `get_all_object_ids_for_type`, the per-type universe. -/
structure ExecEnv where
  componentResult : Nat → Finset Nat
  universeOf : String → Finset Nat

mutual

/-- Modelled from the spec: the bottom-up walk of the plan tree yielding an
id set per node: AND folds left-to-right with short-circuit to ∅, OR unions
and deduplicates, NOT subtracts from the universe of the clause's primary
object type (`grizabella.core.query_engine.QueryExecutor._execute_node`). -/
def execNode (env : ExecEnv) : PlannedClause → Finset Nat
  | .component idx _ _ _ => env.componentResult idx
  | .group .AND [] => ∅
  | .group .AND (c :: cs) => execAndRest env (execNode env c) cs
  | .group .OR cs => execOrList env cs
  | .notClause c => env.universeOf c.primaryType \ execNode env c

/-- Modelled from the spec: lazy left-to-right AND fold, stopping (and
returning ∅) as soon as the running intersection becomes empty. -/
def execAndRest (env : ExecEnv) (acc : Finset Nat) : List PlannedClause → Finset Nat
  | [] => acc
  | c :: cs =>
      if acc = ∅ then ∅
      else execAndRest env (acc ∩ execNode env c) cs

/-- Modelled from the spec: OR computes all children and unions them. -/
def execOrList (env : ExecEnv) : List PlannedClause → Finset Nat
  | [] => ∅
  | c :: cs => execNode env c ∪ execOrList env cs

end

/-! ### Core data model (spec §3, `grizabella.core.models`) -/

/-- Modelled from the spec: the eight semantic property types
(missing module `grizabella.core.models`). -/
inductive PropertyDataType
  | TEXT
  | INTEGER
  | FLOAT
  | BOOLEAN
  | DATETIME
  | BLOB
  | JSON
  | UUID
deriving Repr, DecidableEq

/-- Modelled from the spec: a named, typed attribute on an object or
relation type (spec §3, `Property`). -/
structure PropertyDefinition where
  name : String
  data_type : PropertyDataType
  is_nullable : Bool := true
  is_unique : Bool := false
  is_indexed : Bool := false
  description : Option String := none
deriving Repr, DecidableEq

/-- Modelled from the spec: an Object Type Definition — unique name, ordered
property list, optional description (spec §3, OTD). -/
structure ObjectTypeDefinition where
  name : String
  description : Option String := none
  properties : List PropertyDefinition := []
deriving Repr, DecidableEq

/-- Modelled from the spec: a Relation Type Definition — unique name, source
and target OTD names, property list, optional description (spec §3, RTD). -/
structure RelationTypeDefinition where
  name : String
  description : Option String := none
  source_object_type_names : List String := []
  target_object_type_names : List String := []
  properties : List PropertyDefinition := []
deriving Repr, DecidableEq

/-- Modelled from the spec: an Embedding Definition — unique name, target OTD
name, source property name, embedding model identifier, dimensionality
(spec §3, ED). -/
structure EmbeddingDefinition where
  name : String
  object_type_name : String
  source_property_name : String
  embedding_model : String
  dimensions : Nat
  description : Option String := none
deriving Repr, DecidableEq

/-! ### Instance Manager embedding step (spec §4.7 step 6,
`grizabella.core.db_manager` / `_InstanceManager`) -/

/-- Modelled from the spec: a text is blank when it is empty or
whitespace-only (Python `not text.strip()`). -/
def isBlank (s : String) : Bool := s.data.all Char.isWhitespace

/-- Modelled from the spec: the stored source-text preview is the first 200
characters of the source text (Python `text[:200]`). -/
def previewOf (s : String) : String := String.mk (s.data.take 200)

/-- Modelled from the spec: the observable effects, in order, of the
per-embedding-definition part of an object upsert on the vector substrate. -/
inductive EmbedAction
  | deleteRows (objId : Nat) (edName : String)
  | loadModel (model : String)
  | writeRow (objId : Nat) (edName : String) (preview : String)
deriving Repr, DecidableEq

/-- Modelled from the spec: processing one embedding definition during an
object upsert (spec §4.7 step 6) — first delete any existing embedding rows
for this object id under this ED (defensive, even if none exist); then, only
when the source property is present and non-blank, load the model and write
one embedding row whose preview is the first 200 characters of the text.
Object property values are modelled as the TEXT strings relevant here. -/
def processEmbedding (objId : Nat) (props : List (String × String))
    (ed : EmbeddingDefinition) : List EmbedAction :=
  let del : List EmbedAction := [.deleteRows objId ed.name]
  match props.lookup ed.source_property_name with
  | none => del
  | some text =>
      if isBlank text then del
      else del ++ [.loadModel ed.embedding_model,
                   .writeRow objId ed.name (previewOf text)]

/-- Modelled from the spec: step 6 of the object upsert loops over every
embedding definition whose target OTD is the object's type, concatenating
the per-ED effects in order. -/
def upsertEmbedActions (objId : Nat) (otype : String)
    (props : List (String × String)) (eds : List EmbeddingDefinition) :
    List EmbedAction :=
  (eds.filter (fun ed => ed.object_type_name == otype)).flatMap
    (processEmbedding objId props)

/-! ### Vector adapter (spec §4.3, `grizabella.db_layers.lancedb`) -/

/-- Modelled from the spec: one row of an embedding-definition table — the
object instance id and its stored vector (vector entries as integers; the
metric only needs an ordered distance). -/
structure VectorRow where
  object_instance_id : Nat
  vector : List Int
deriving Repr, DecidableEq

/-- Squared L2 distance between two vectors, the ascending search metric. -/
def l2sq (v w : List Int) : Int :=
  ((v.zip w).map (fun p => (p.1 - p.2) * (p.1 - p.2))).sum

/-- Insert a scored pair into a list sorted by ascending distance. -/
def insertByDist (p : Nat × Int) : List (Nat × Int) → List (Nat × Int)
  | [] => [p]
  | q :: qs => if p.2 < q.2 then p :: q :: qs else q :: insertByDist p qs

/-- Sort scored pairs by ascending distance (insertion sort). -/
def sortByDist : List (Nat × Int) → List (Nat × Int)
  | [] => []
  | p :: ps => insertByDist p (sortByDist ps)

/-- Modelled from the spec: `query_similar(ed_name, query_vector, limit,
filter_condition?)` — top-`limit` records by ascending distance, after the
optional substrate-native pre-filter `object_instance_id IN (...)`. -/
def querySimilar (table : List VectorRow) (q : List Int) (limit : Nat)
    (filterIds : Option (List Nat)) : List (Nat × Int) :=
  let rows : List VectorRow :=
    match filterIds with
    | some ids => table.filter (fun r => decide (r.object_instance_id ∈ ids))
    | none => table
  (sortByDist (rows.map (fun r => (r.object_instance_id, l2sq q r.vector)))).take limit

/-- Modelled from the spec: `find_object_ids_by_similarity(ed_name,
query_vector, limit, initial_ids?)` — returns `(id, distance)` pairs; an
empty `initial_ids` list short-circuits to the empty result; a non-empty one
is pushed down as a pre-filter on the similarity search
(missing module `grizabella.db_layers.lancedb.lancedb_adapter`). -/
def find_object_ids_by_similarity (table : List VectorRow) (q : List Int)
    (limit : Nat) (initial_ids : Option (List Nat)) : List (Nat × Int) :=
  match initial_ids with
  | none => querySimilar table q limit none
  | some ids => if ids = [] then [] else querySimilar table q limit (some ids)

/-! ### Graph adapter (spec §4.4, `grizabella.db_layers.kuzu`) -/

/-- Modelled from the spec: a stored relation instance as the graph adapter
sees it — id, relation type, endpoint ids and a property map. -/
structure RelationRecord where
  id : Nat
  relation_type_name : String
  source_object_id : Nat
  target_object_id : Nat
  properties : List (String × String) := []
deriving Repr, DecidableEq

/-- Modelled from the spec: the outcome of `find_relation_instances` — the
returned records plus whether the graph substrate was queried at all. -/
structure FindRelOutcome where
  records : List RelationRecord
  substrateQueried : Bool
deriving Repr, DecidableEq

/-- Whether a call outcome is an error (the model's image of a raised
`ValueError`). -/
def isErr {α : Type} : Except String α → Bool
  | .error _ => true
  | .ok _ => false

/-- Does a stored record match all the optional filters? -/
def relMatches (relation_type_name : Option String)
    (source_object_id target_object_id : Option Nat)
    (query : Option (List (String × String))) (r : RelationRecord) : Bool :=
  (match relation_type_name with | none => true | some t => r.relation_type_name == t)
  && (match source_object_id with | none => true | some s => r.source_object_id == s)
  && (match target_object_id with | none => true | some t => r.target_object_id == t)
  && (match query with
      | none => true
      | some conds => conds.all (fun c => r.properties.lookup c.1 == some c.2))

/-- Modelled from the spec and the adapter's asserted error strings:
`find_relation_instances(type?, source_id?, target_id?, query?, limit?)` —
returns `[]` without touching the substrate when no filter at all is given;
raises `ValueError` when a property query or an endpoint id is given without
`relation_type_name`; otherwise runs the substrate query
(missing module `grizabella.db_layers.kuzu.kuzu_adapter`). -/
def find_relation_instances (graph : List RelationRecord)
    (relation_type_name : Option String)
    (source_object_id target_object_id : Option Nat)
    (query : Option (List (String × String))) (limit : Option Nat) :
    Except String FindRelOutcome :=
  if relation_type_name = none ∧ source_object_id = none ∧
      target_object_id = none ∧ query = none then
    .ok ⟨[], false⟩
  else if query.isSome ∧ relation_type_name = none then
    .error "Querying by relation properties (using the query parameter) requires specifying the relation_type_name."
  else if (source_object_id.isSome ∨ target_object_id.isSome) ∧
      relation_type_name = none then
    .error "Querying relations by source/target ID without specifying relation_type_name is too broad and requires relation_type_name."
  else
    let hits := graph.filter
      (relMatches relation_type_name source_object_id target_object_id query)
    .ok ⟨(match limit with | none => hits | some k => hits.take k), true⟩

/-! ### Database Manager Factory (spec §4.10,
`grizabella.core.connection_manager.DBManagerFactory`) -/

/-- Modelled from the spec: the factory state — `{path → (manager,
refcount)}` plus a fresh-manager counter and the multiset of managers that
have been closed (managers are identified by allocation number). -/
structure FactoryState where
  entries : List (String × (Nat × Nat))
  nextId : Nat
  closed : List Nat
deriving Repr, DecidableEq

/-- The reference count the factory holds for `path` (0 when absent). -/
def refCountOf (s : FactoryState) (path : String) : Nat :=
  ((s.entries.lookup path).map Prod.snd).getD 0

/-- The manager instance registered for `path`, when present. -/
def managerOf (s : FactoryState) (path : String) : Option Nat :=
  (s.entries.lookup path).map Prod.fst

/-- Modelled from the spec: `get_manager(path)` returns the existing manager
and increments its refcount, or constructs a fresh manager with refcount 1. -/
def get_manager (s : FactoryState) (path : String) : Nat × FactoryState :=
  match s.entries.lookup path with
  | some mc =>
      (mc.1, { s with entries := assocSet s.entries path (mc.1, mc.2 + 1) })
  | none =>
      (s.nextId,
       { entries := assocSet s.entries path (s.nextId, 1),
         nextId := s.nextId + 1,
         closed := s.closed })

/-- Modelled from the spec: `release(path)` decrements the refcount and, at
zero, closes the manager and evicts the entry. -/
def release_manager (s : FactoryState) (path : String) : FactoryState :=
  match s.entries.lookup path with
  | some mc =>
      if mc.2 ≤ 1 then
        { s with entries := assocErase s.entries path, closed := mc.1 :: s.closed }
      else
        { s with entries := assocSet s.entries path (mc.1, mc.2 - 1) }
  | none => s

/-! ### Relational adapter metadata persistence (spec §4.2,
`grizabella.db_layers.sqlite`) -/

/-- Modelled from the spec: the JSON-like serialized form a metadata row
stores for a definition. -/
inductive JValue
  | jnull
  | jbool (b : Bool)
  | jint (n : Int)
  | jstr (s : String)
  | jarr (xs : List JValue)
  | jobj (fields : List (String × JValue))
deriving Repr

/-- String name of a semantic property type, as serialized. -/
def PropertyDataType.toStr : PropertyDataType → String
  | .TEXT => "TEXT"
  | .INTEGER => "INTEGER"
  | .FLOAT => "FLOAT"
  | .BOOLEAN => "BOOLEAN"
  | .DATETIME => "DATETIME"
  | .BLOB => "BLOB"
  | .JSON => "JSON"
  | .UUID => "UUID"

/-- Parse a serialized semantic property type name. -/
def PropertyDataType.ofStr (s : String) : Option PropertyDataType :=
  if s = "TEXT" then some .TEXT
  else if s = "INTEGER" then some .INTEGER
  else if s = "FLOAT" then some .FLOAT
  else if s = "BOOLEAN" then some .BOOLEAN
  else if s = "DATETIME" then some .DATETIME
  else if s = "BLOB" then some .BLOB
  else if s = "JSON" then some .JSON
  else if s = "UUID" then some .UUID
  else none

/-- Serialize an optional description (absent becomes JSON null). -/
def encodeOptStr : Option String → JValue
  | none => .jnull
  | some s => .jstr s

/-- Parse an optional description. -/
def decodeOptStr : JValue → Option (Option String)
  | .jnull => some none
  | .jstr s => some (some s)
  | _ => none

/-- Serialize one property definition. -/
def encodeProp (p : PropertyDefinition) : JValue :=
  .jobj [("name", .jstr p.name),
         ("data_type", .jstr p.data_type.toStr),
         ("is_nullable", .jbool p.is_nullable),
         ("is_unique", .jbool p.is_unique),
         ("is_indexed", .jbool p.is_indexed),
         ("description", encodeOptStr p.description)]

/-- Parse one serialized property definition. -/
def decodeProp : JValue → Option PropertyDefinition
  | .jobj [("name", .jstr n), ("data_type", .jstr dt), ("is_nullable", .jbool nu),
           ("is_unique", .jbool uq), ("is_indexed", .jbool ix), ("description", d)] =>
      match PropertyDataType.ofStr dt, decodeOptStr d with
      | some t, some desc => some ⟨n, t, nu, uq, ix, desc⟩
      | _, _ => none
  | _ => none

/-- Parse a serialized property list. -/
def decodePropList : List JValue → Option (List PropertyDefinition)
  | [] => some []
  | v :: vs =>
      match decodeProp v, decodePropList vs with
      | some p, some ps => some (p :: ps)
      | _, _ => none

/-- Parse a serialized list of strings. -/
def decodeStrList : List JValue → Option (List String)
  | [] => some []
  | .jstr s :: vs =>
      match decodeStrList vs with
      | some ss => some (s :: ss)
      | none => none
  | _ => none

/-- Serialize an object type definition. -/
def encodeOTD (o : ObjectTypeDefinition) : JValue :=
  .jobj [("name", .jstr o.name),
         ("description", encodeOptStr o.description),
         ("properties", .jarr (o.properties.map encodeProp))]

/-- Parse a serialized object type definition. -/
def decodeOTD : JValue → Option ObjectTypeDefinition
  | .jobj [("name", .jstr n), ("description", d), ("properties", .jarr ps)] =>
      match decodeOptStr d, decodePropList ps with
      | some desc, some props => some ⟨n, desc, props⟩
      | _, _ => none
  | _ => none

/-- Serialize a relation type definition. -/
def encodeRTD (r : RelationTypeDefinition) : JValue :=
  .jobj [("name", .jstr r.name),
         ("description", encodeOptStr r.description),
         ("source_object_type_names", .jarr (r.source_object_type_names.map .jstr)),
         ("target_object_type_names", .jarr (r.target_object_type_names.map .jstr)),
         ("properties", .jarr (r.properties.map encodeProp))]

/-- Parse a serialized relation type definition. -/
def decodeRTD : JValue → Option RelationTypeDefinition
  | .jobj [("name", .jstr n), ("description", d),
           ("source_object_type_names", .jarr ss),
           ("target_object_type_names", .jarr ts),
           ("properties", .jarr ps)] =>
      match decodeOptStr d, decodeStrList ss, decodeStrList ts, decodePropList ps with
      | some desc, some srcs, some tgts, some props => some ⟨n, desc, srcs, tgts, props⟩
      | _, _, _, _ => none
  | _ => none

/-- Serialize an embedding definition. -/
def encodeED (e : EmbeddingDefinition) : JValue :=
  .jobj [("name", .jstr e.name),
         ("object_type_name", .jstr e.object_type_name),
         ("source_property_name", .jstr e.source_property_name),
         ("embedding_model", .jstr e.embedding_model),
         ("dimensions", .jint (Int.ofNat e.dimensions)),
         ("description", encodeOptStr e.description)]

/-- Parse a serialized embedding definition. -/
def decodeED : JValue → Option EmbeddingDefinition
  | .jobj [("name", .jstr n), ("object_type_name", .jstr ot),
           ("source_property_name", .jstr sp), ("embedding_model", .jstr em),
           ("dimensions", .jint dim), ("description", d)] =>
      match decodeOptStr d with
      | some desc => if dim < 0 then none else some ⟨n, ot, sp, em, dim.toNat, desc⟩
      | none => none
  | _ => none

/-- Modelled from the spec: the three metadata tables of the relational
adapter, each row keyed by definition name and storing the serialized
definition (missing module `grizabella.db_layers.sqlite.sqlite_adapter`). -/
structure SQLiteMetaStore where
  object_types : List (String × JValue)
  relation_types : List (String × JValue)
  embedding_defs : List (String × JValue)

/-- The freshly initialized metadata store: all three tables empty. -/
def SQLiteMetaStore.init : SQLiteMetaStore := ⟨[], [], []⟩

/-- Modelled from the spec: `save_object_type_definition` — serialize and
upsert the row keyed by the definition name. -/
def save_object_type_definition (st : SQLiteMetaStore)
    (o : ObjectTypeDefinition) : SQLiteMetaStore :=
  { st with object_types := assocSet st.object_types o.name (encodeOTD o) }

/-- Modelled from the spec: `load_object_type_definition` — fetch the row by
name and deserialize; `none` when absent. -/
def load_object_type_definition (st : SQLiteMetaStore) (name : String) :
    Option ObjectTypeDefinition :=
  (st.object_types.lookup name).bind decodeOTD

/-- Modelled from the spec: `save_relation_type_definition`. -/
def save_relation_type_definition (st : SQLiteMetaStore)
    (r : RelationTypeDefinition) : SQLiteMetaStore :=
  { st with relation_types := assocSet st.relation_types r.name (encodeRTD r) }

/-- Modelled from the spec: `load_relation_type_definition`. -/
def load_relation_type_definition (st : SQLiteMetaStore) (name : String) :
    Option RelationTypeDefinition :=
  (st.relation_types.lookup name).bind decodeRTD

/-- Modelled from the spec: `save_embedding_definition`. -/
def save_embedding_definition (st : SQLiteMetaStore)
    (e : EmbeddingDefinition) : SQLiteMetaStore :=
  { st with embedding_defs := assocSet st.embedding_defs e.name (encodeED e) }

/-- Modelled from the spec: `load_embedding_definition`. -/
def load_embedding_definition (st : SQLiteMetaStore) (name : String) :
    Option EmbeddingDefinition :=
  (st.embedding_defs.lookup name).bind decodeED

/-! ### MCP server database-path resolution
(`src/grizabella/mcp/server.py`, present in the repository) -/

/-- The environment variable consulted by the MCP server (server.py:54). -/
def GRIZABELLA_DB_PATH_ENV_VAR : String := "GRIZABELLA_DB_PATH"

/-- The default database path of the MCP server (server.py:55). -/
def DEFAULT_GRIZABELLA_DB_PATH : String := "grizabella_mcp_db"

/-- Embedding of `get_grizabella_db_path` (server.py:57-61):
`if db_path_arg: return db_path_arg` followed by
`return os.getenv(ENV_VAR, DEFAULT)`.  Python truthiness makes an
empty-string argument falsy, so it falls through to the environment lookup;
the process environment is modelled as an association list. -/
def get_grizabella_db_path (db_path_arg : Option String)
    (env : List (String × String)) : String :=
  match db_path_arg with
  | some s =>
      if s ≠ "" then s
      else (env.lookup GRIZABELLA_DB_PATH_ENV_VAR).getD DEFAULT_GRIZABELLA_DB_PATH
  | none => (env.lookup GRIZABELLA_DB_PATH_ENV_VAR).getD DEFAULT_GRIZABELLA_DB_PATH

/-! ## Theorems -/

lemma lookup_assocSet {α : Type} (l : List (String × α)) (k : String) (v : α) :
    (assocSet l k v).lookup k = some v := by
  simp [assocSet, List.lookup]

lemma lookup_assocErase {α : Type} (l : List (String × α)) (k : String) :
    (assocErase l k).lookup k = none := by
  induction l with
  | nil => rfl
  | cons p l ih =>
      obtain ⟨k', v⟩ := p
      by_cases h : k' = k
      · simpa [assocErase, List.filter_cons, h] using ih
      · have hkp : (k == k') = false := beq_eq_false_iff_ne.mpr (Ne.symm h)
        have step : assocErase ((k', v) :: l) k = (k', v) :: assocErase l k := by
          simp [assocErase, List.filter_cons, h]
        rw [step, List.lookup_cons, hkp]
        exact ih

lemma processEmbedding_head (objId : Nat) (props : List (String × String))
    (ed : EmbeddingDefinition) :
    (processEmbedding objId props ed).head? =
      some (.deleteRows objId ed.name) := by
  unfold processEmbedding
  cases h : props.lookup ed.source_property_name with
  | none => rfl
  | some t => by_cases hb : isBlank t <;> simp [hb]

/-- **C2.** On an object upsert, for each embedding definition targeting the
object's type, the Instance Manager first deletes any existing embedding
rows for that object id under that ED (even when none exist); and when the
ED's source property is absent from the property map or blank (empty or
whitespace-only), no embedding model is loaded and no embedding row is
written — the per-ED effect is exactly the defensive deletion. -/
theorem upsert_defensively_deletes_then_skips_blank
    (objId : Nat) (otype : String) (props : List (String × String))
    (eds : List EmbeddingDefinition) (ed : EmbeddingDefinition)
    (hmem : ed ∈ eds) (htarget : ed.object_type_name = otype) :
    EmbedAction.deleteRows objId ed.name ∈ upsertEmbedActions objId otype props eds ∧
    (processEmbedding objId props ed).head? = some (.deleteRows objId ed.name) ∧
    ((props.lookup ed.source_property_name).all isBlank = true →
      processEmbedding objId props ed = [.deleteRows objId ed.name]) := by
  refine ⟨?_, processEmbedding_head objId props ed, ?_⟩
  · apply List.mem_flatMap.mpr
    refine ⟨ed, List.mem_filter.mpr ⟨hmem, by simp [htarget]⟩, ?_⟩
    have h := processEmbedding_head objId props ed
    cases hres : processEmbedding objId props ed with
    | nil => simp [hres] at h
    | cons a l =>
        rw [hres] at h
        simp only [List.head?_cons, Option.some.injEq] at h
        exact h ▸ List.mem_cons_self a l
  · intro hblank
    unfold processEmbedding
    cases h : props.lookup ed.source_property_name with
    | none => rfl
    | some t =>
        rw [h] at hblank
        simp only [Option.all] at hblank
        simp [hblank]

/-- Witness for C2 at a concrete input: an object of type `TestDoc` whose
property map lacks the `content` source property of the single applicable
embedding definition. -/
theorem upsert_defensively_deletes_then_skips_blank_witness :
    EmbedAction.deleteRows 7 "content_embed" ∈
      upsertEmbedActions 7 "TestDoc" [("title", "x")]
        [⟨"content_embed", "TestDoc", "content", "m", 512, none⟩] ∧
    processEmbedding 7 [("title", "x")]
        ⟨"content_embed", "TestDoc", "content", "m", 512, none⟩ =
      [.deleteRows 7 "content_embed"] := by
  have h := upsert_defensively_deletes_then_skips_blank 7 "TestDoc"
    [("title", "x")] [⟨"content_embed", "TestDoc", "content", "m", 512, none⟩]
    ⟨"content_embed", "TestDoc", "content", "m", 512, none⟩
    (List.mem_singleton.mpr rfl) rfl
  exact ⟨h.1, h.2.2 (by decide)⟩

/-- **C7.** Whenever the upsert writes an embedding row, the stored
`source_text_preview` is exactly the first 200 characters of the source
property's text; a text of length ≥ 200 yields a preview of exactly 200
characters, and re-upserting after the property changed writes a row
carrying the first 200 characters of the new text. -/
theorem embedding_preview_is_first_200_chars
    (objId : Nat) (props : List (String × String)) (ed : EmbeddingDefinition)
    (text : String) (hfound : props.lookup ed.source_property_name = some text)
    (hnb : isBlank text = false) :
    processEmbedding objId props ed =
      [.deleteRows objId ed.name, .loadModel ed.embedding_model,
       .writeRow objId ed.name (previewOf text)] ∧
    (previewOf text).length = min 200 text.length ∧
    (200 ≤ text.length → (previewOf text).length = 200) ∧
    (∀ newText : String, isBlank newText = false →
      processEmbedding objId (assocSet props ed.source_property_name newText) ed =
        [.deleteRows objId ed.name, .loadModel ed.embedding_model,
         .writeRow objId ed.name (previewOf newText)]) := by
  have hlen : ∀ s : String, (previewOf s).length = min 200 s.length := by
    intro s
    show (s.data.take 200).length = min 200 s.data.length
    exact List.length_take 200 s.data
  refine ⟨?_, hlen text, ?_, ?_⟩
  · unfold processEmbedding
    rw [hfound]
    simp [hnb]
  · intro h200
    rw [hlen text]
    omega
  · intro newText hnb2
    unfold processEmbedding
    rw [lookup_assocSet props ed.source_property_name newText]
    simp [hnb2]

set_option maxRecDepth 4000 in
/-- Witness for C7 at a concrete input: a 210-character source text yields a
write action whose preview has exactly 200 characters. -/
theorem embedding_preview_is_first_200_chars_witness :
    (previewOf (String.mk (List.replicate 210 'a'))).length = 200 ∧
    processEmbedding 7 [("content", String.mk (List.replicate 210 'a'))]
        ⟨"content_embed", "TestDoc", "content", "m", 512, none⟩ =
      [.deleteRows 7 "content_embed", .loadModel "m",
       .writeRow 7 "content_embed" (previewOf (String.mk (List.replicate 210 'a')))] := by
  have h := embedding_preview_is_first_200_chars 7
    [("content", String.mk (List.replicate 210 'a'))]
    ⟨"content_embed", "TestDoc", "content", "m", 512, none⟩
    (String.mk (List.replicate 210 'a')) (by decide) (by decide)
  exact ⟨h.2.2.1 (by decide), h.1⟩

lemma planList_map_component (cs : List QueryComponent) :
    ∀ n : Nat,
      planList (cs.map .component) n =
        ((cs.enumFrom n).map fun p =>
          PlannedClause.component p.1 p.2.object_type_name (planSteps p.2) p.2,
         n + cs.length) := by
  induction cs with
  | nil => intro n; simp [planList, List.enumFrom]
  | cons c cs ih =>
      intro n
      simp only [List.map_cons, planList, planClause, ih (n + 1), List.enumFrom,
        List.length_cons, Prod.mk.injEq]
      refine ⟨trivial, by omega⟩

/-- **C8.** Planning a legacy `ComplexQuery` given through `components =
[c1..cn]` coincides with planning the `query_root` form
`LogicalGroup{AND, [c1..cn]}`, and the resulting plan root is a
`PlannedLogicalGroup` with operator AND holding one
`PlannedComponentExecution` per component, in the original order (with
component indices 0..n-1). -/
theorem planner_wraps_components_as_AND_group (cs : List QueryComponent) :
    planComplexQuery (some cs) none =
      planComplexQuery none (some (.group .AND (cs.map .component))) ∧
    planComplexQuery (some cs) none =
      some (.group .AND (cs.enum.map fun p =>
        PlannedClause.component p.1 p.2.object_type_name (planSteps p.2) p.2)) := by
  constructor
  · rfl
  · simp only [planComplexQuery, planClause, planList_map_component cs 0, List.enum]

/-- **C10.** Constructing a `ComplexQuery` with both `components` and
`query_root` set, or with neither set, fails model validation; construction
succeeds precisely when exactly one of the two shapes is provided, and then
the constructed model carries exactly the provided shape. -/
theorem complex_query_requires_exactly_one_shape
    (cs : List QueryComponent) (q : QueryClause)
    (c? : Option (List QueryComponent)) (q? : Option QueryClause) :
    (∃ msg, ComplexQuery.validate (some cs) (some q) = .error msg) ∧
    (∃ msg, ComplexQuery.validate none none = .error msg) ∧
    ComplexQuery.validate (some cs) none = .ok ⟨some cs, none⟩ ∧
    ComplexQuery.validate none (some q) = .ok ⟨none, some q⟩ ∧
    ((∃ r, ComplexQuery.validate c? q? = .ok r) ↔
      (c?.isSome ∧ q? = none) ∨ (c? = none ∧ q?.isSome)) := by
  refine ⟨⟨_, rfl⟩, ⟨_, rfl⟩, rfl, rfl, ?_⟩
  cases c? <;> cases q? <;> simp [ComplexQuery.validate]

lemma mem_execAndRest (env : ExecEnv) (x : Nat) :
    ∀ (cs : List PlannedClause) (acc : Finset Nat),
      x ∈ execAndRest env acc cs ↔ x ∈ acc ∧ ∀ c ∈ cs, x ∈ execNode env c := by
  intro cs
  induction cs with
  | nil => intro acc; simp [execAndRest]
  | cons c cs ih =>
      intro acc
      rw [execAndRest]
      by_cases hacc : acc = ∅
      · simp [hacc]
      · simp only [if_neg hacc, ih, Finset.mem_inter]
        constructor
        · rintro ⟨⟨hx, hc⟩, hrest⟩
          exact ⟨hx, fun cl hcl => by
            rcases List.mem_cons.mp hcl with h | h
            · exact h ▸ hc
            · exact hrest cl h⟩
        · rintro ⟨hx, hall⟩
          exact ⟨⟨hx, hall c (List.mem_cons_self c cs)⟩,
            fun cl hcl => hall cl (List.mem_cons_of_mem c hcl)⟩

lemma mem_execOrList (env : ExecEnv) (x : Nat) :
    ∀ cs : List PlannedClause,
      x ∈ execOrList env cs ↔ ∃ c ∈ cs, x ∈ execNode env c := by
  intro cs
  induction cs with
  | nil => simp [execOrList]
  | cons c cs ih => rw [execOrList]; simp [ih]

/-- **C1.** The Query Executor composes child identifier sets by set algebra:
a planned logical group with operator AND yields exactly the intersection of
its (nonempty list of) clauses' id sets — the lazy short-circuiting fold
included — a group with operator OR yields their deduplicated union, and a
planned NOT clause yields the universe of the clause's primary object type
(`get_all_object_ids_for_type`) minus the clause's id set. -/
theorem executor_composes_by_set_algebra (env : ExecEnv) (c : PlannedClause)
    (cs : List PlannedClause) (x : Nat) :
    (x ∈ execNode env (.group .AND cs) ↔ cs ≠ [] ∧ ∀ cl ∈ cs, x ∈ execNode env cl) ∧
    (x ∈ execNode env (.group .OR cs) ↔ ∃ cl ∈ cs, x ∈ execNode env cl) ∧
    (x ∈ execNode env (.notClause c) ↔
      x ∈ env.universeOf c.primaryType ∧ x ∉ execNode env c) := by
  refine ⟨?_, ?_, ?_⟩
  · cases cs with
    | nil => simp [execNode]
    | cons hd tl =>
        rw [execNode, mem_execAndRest]
        constructor
        · rintro ⟨hx, hall⟩
          exact ⟨List.cons_ne_nil hd tl, fun cl hcl => by
            rcases List.mem_cons.mp hcl with h | h
            · exact h ▸ hx
            · exact hall cl h⟩
        · rintro ⟨-, hall⟩
          exact ⟨hall hd (List.mem_cons_self hd tl),
            fun cl hcl => hall cl (List.mem_cons_of_mem hd hcl)⟩
  · rw [execNode, mem_execOrList]
  · rw [execNode]; exact Finset.mem_sdiff

lemma mem_insertByDist (p q : Nat × Int) :
    ∀ l : List (Nat × Int), q ∈ insertByDist p l ↔ q = p ∨ q ∈ l := by
  intro l
  induction l with
  | nil => simp [insertByDist]
  | cons r rs ih =>
      rw [insertByDist]
      by_cases h : p.2 < r.2
      · simp [h]
      · simp only [if_neg h, List.mem_cons, ih]
        tauto

lemma mem_sortByDist (q : Nat × Int) :
    ∀ l : List (Nat × Int), q ∈ sortByDist l ↔ q ∈ l := by
  intro l
  induction l with
  | nil => simp [sortByDist]
  | cons r rs ih => rw [sortByDist]; simp [mem_insertByDist, ih]

/-- **C3.** `find_object_ids_by_similarity`: an explicitly empty
`initial_ids` list yields the empty result; a non-empty `initial_ids` list is
pushed down as a pre-filter, so every `(id, distance)` pair returned draws
its id from `initial_ids` — only initial ids that survive the similarity
search are returned. -/
theorem similarity_search_respects_initial_ids (table : List VectorRow)
    (q : List Int) (limit : Nat) :
    find_object_ids_by_similarity table q limit (some []) = [] ∧
    (∀ ids : List Nat, ids ≠ [] →
      ∀ p ∈ find_object_ids_by_similarity table q limit (some ids), p.1 ∈ ids) := by
  constructor
  · rfl
  · intro ids hne p hp
    simp only [find_object_ids_by_similarity, if_neg hne, querySimilar] at hp
    have hp2 := List.take_subset limit _ hp
    rw [mem_sortByDist] at hp2
    obtain ⟨r, hr, hpr⟩ := List.mem_map.mp hp2
    obtain ⟨-, hrf⟩ := List.mem_filter.mp hr
    rw [← hpr]
    exact of_decide_eq_true hrf

/-- Witness for C3 at a concrete input: a two-row table queried with
`initial_ids = []` returns nothing, and the pair the search returns for
`initial_ids = [2]` indeed carries id 2. -/
theorem similarity_search_respects_initial_ids_witness :
    find_object_ids_by_similarity [⟨1, [0]⟩, ⟨2, [5]⟩] [0] 2 (some []) = [] ∧
    (2 : Nat) ∈ [2] := by
  have h := similarity_search_respects_initial_ids [⟨1, [0]⟩, ⟨2, [5]⟩] [0] 2
  exact ⟨h.1, h.2 [2] (by decide) (2, 25) (by decide)⟩

/-- **C4.** The graph adapter's `find_relation_instances` raises `ValueError`
whenever a property filter, a source object id, or a target object id is
supplied without `relation_type_name`; and with no relation type, no
endpoint ids and no property filter at all it returns the empty list without
issuing any query to the graph substrate. -/
theorem find_relation_instances_guards (g : List RelationRecord)
    (src tgt : Option Nat) (q : Option (List (String × String)))
    (lim : Option Nat) :
    ((q.isSome = true ∨ src.isSome = true ∨ tgt.isSome = true) →
      isErr (find_relation_instances g none src tgt q lim) = true) ∧
    find_relation_instances g none none none none lim = .ok ⟨[], false⟩ := by
  constructor
  · intro h
    unfold find_relation_instances
    have hcond : ¬ ((none : Option String) = none ∧ src = none ∧
        tgt = none ∧ q = none) := by
      rintro ⟨-, hs, ht, hq⟩
      rcases h with h | h | h
      · rw [hq] at h; simp at h
      · rw [hs] at h; simp at h
      · rw [ht] at h; simp at h
    rw [if_neg hcond]
    by_cases hq : q.isSome = true
    · rw [if_pos ⟨hq, rfl⟩]; rfl
    · rw [if_neg (fun hc => hq hc.1)]
      have hst : src.isSome = true ∨ tgt.isSome = true := by
        rcases h with h | h | h
        · exact absurd h hq
        · exact Or.inl h
        · exact Or.inr h
      rw [if_pos ⟨hst, rfl⟩]
      rfl
  · rfl

/-- Witness for C4 at a concrete input: supplying only a source object id
(no relation type) errors, and supplying nothing at all returns the empty
list with the substrate untouched. -/
theorem find_relation_instances_guards_witness :
    isErr (find_relation_instances [] none (some 1) none none none) = true ∧
    find_relation_instances [] none none none none none =
      .ok ⟨[], false⟩ := by
  have h := find_relation_instances_guards [] (some 1) none none none
  exact ⟨h.1 (Or.inr (Or.inl rfl)), h.2⟩

/-- **C5.** The DBManagerFactory returns the same manager instance for a path
on repeated `get_manager` calls, incrementing the path's reference count by
one each call; `release` decrements the count, and when it reaches zero the
entry is evicted from the internal map and the underlying manager is
closed. -/
theorem factory_refcounted_singleton (s : FactoryState) (path : String) :
    (get_manager (get_manager s path).2 path).1 = (get_manager s path).1 ∧
    refCountOf (get_manager s path).2 path = refCountOf s path + 1 ∧
    refCountOf (release_manager s path) path = refCountOf s path - 1 ∧
    (refCountOf s path = 1 →
      managerOf (release_manager s path) path = none ∧
      ∀ m, managerOf s path = some m → m ∈ (release_manager s path).closed) := by
  cases h : s.entries.lookup path with
  | none =>
      refine ⟨?_, ?_, ?_, ?_⟩
      · simp [get_manager, h, lookup_assocSet]
      · simp [get_manager, h, refCountOf, lookup_assocSet]
      · simp [release_manager, h, refCountOf]
      · intro h1
        rw [refCountOf, h] at h1
        simp at h1
  | some mc =>
      obtain ⟨m, c⟩ := mc
      refine ⟨?_, ?_, ?_, ?_⟩
      · simp [get_manager, h, lookup_assocSet]
      · simp [get_manager, h, refCountOf, lookup_assocSet]
      · simp only [release_manager, h]
        by_cases hc : c ≤ 1
        · rw [if_pos hc]
          simp [refCountOf, h, lookup_assocErase]
          omega
        · rw [if_neg hc]
          simp [refCountOf, h, lookup_assocSet]
      · intro h1
        rw [refCountOf, h] at h1
        simp at h1
        simp only [release_manager, h]
        rw [if_pos (by omega : c ≤ 1)]
        constructor
        · simp [managerOf, lookup_assocErase]
        · intro m' hm'
          rw [managerOf, h] at hm'
          simp at hm'
          simp [← hm']

/-- Witness for C5 at a concrete input: starting from the empty factory,
one `get_manager` followed by one `release` leaves no entry for the path and
closes the allocated manager. -/
theorem factory_refcounted_singleton_witness :
    managerOf (release_manager (get_manager ⟨[], 0, []⟩ "p").2 "p") "p" = none ∧
    0 ∈ (release_manager (get_manager ⟨[], 0, []⟩ "p").2 "p").closed := by
  have h := factory_refcounted_singleton (get_manager ⟨[], 0, []⟩ "p").2 "p"
  have h4 := h.2.2.2 (by decide)
  exact ⟨h4.1, h4.2 0 (by decide)⟩

lemma ofStr_toStr (t : PropertyDataType) :
    PropertyDataType.ofStr t.toStr = some t := by
  cases t <;> rfl

lemma decodeOptStr_encodeOptStr (d : Option String) :
    decodeOptStr (encodeOptStr d) = some d := by
  cases d <;> rfl

lemma decodeProp_encodeProp (p : PropertyDefinition) :
    decodeProp (encodeProp p) = some p := by
  obtain ⟨n, t, nu, uq, ix, d⟩ := p
  simp [encodeProp, decodeProp, ofStr_toStr, decodeOptStr_encodeOptStr]

lemma decodePropList_map (ps : List PropertyDefinition) :
    decodePropList (ps.map encodeProp) = some ps := by
  induction ps with
  | nil => rfl
  | cons p ps ih => simp [decodePropList, decodeProp_encodeProp, ih]

lemma decodeStrList_map (ss : List String) :
    decodeStrList (ss.map JValue.jstr) = some ss := by
  induction ss with
  | nil => rfl
  | cons s ss ih => simp [decodeStrList, ih]

lemma decodeOTD_encodeOTD (o : ObjectTypeDefinition) :
    decodeOTD (encodeOTD o) = some o := by
  obtain ⟨n, d, ps⟩ := o
  simp [encodeOTD, decodeOTD, decodeOptStr_encodeOptStr, decodePropList_map]

lemma decodeRTD_encodeRTD (r : RelationTypeDefinition) :
    decodeRTD (encodeRTD r) = some r := by
  obtain ⟨n, d, ss, ts, ps⟩ := r
  simp [encodeRTD, decodeRTD, decodeOptStr_encodeOptStr, decodeStrList_map,
    decodePropList_map]

lemma decodeED_encodeED (e : EmbeddingDefinition) :
    decodeED (encodeED e) = some e := by
  obtain ⟨n, ot, sp, em, dim, d⟩ := e
  simp [encodeED, decodeED, decodeOptStr_encodeOptStr]

/-- **C6.** For every definition kind (object type, relation type, embedding
definition), saving through the relational adapter's metadata tables and
loading back by name returns a definition equal to the one saved (the
serialize→deserialize round-trip), while loading a name from the freshly
initialized store (where nothing was ever saved) returns `None`. -/
theorem definition_save_load_roundtrip (st : SQLiteMetaStore)
    (o : ObjectTypeDefinition) (r : RelationTypeDefinition)
    (e : EmbeddingDefinition) (name : String) :
    load_object_type_definition (save_object_type_definition st o) o.name = some o ∧
    load_relation_type_definition (save_relation_type_definition st r) r.name = some r ∧
    load_embedding_definition (save_embedding_definition st e) e.name = some e ∧
    load_object_type_definition .init name = none ∧
    load_relation_type_definition .init name = none ∧
    load_embedding_definition .init name = none := by
  refine ⟨?_, ?_, ?_, rfl, rfl, rfl⟩
  · simp [load_object_type_definition, save_object_type_definition,
      lookup_assocSet, decodeOTD_encodeOTD]
  · simp [load_relation_type_definition, save_relation_type_definition,
      lookup_assocSet, decodeRTD_encodeRTD]
  · simp [load_embedding_definition, save_embedding_definition,
      lookup_assocSet, decodeED_encodeED]

/-- **C9 counterexample.** The claim says the `--db-path` argument, when
provided, always wins.  The code checks Python truthiness (`if db_path_arg:`,
server.py:59), so a provided empty-string argument is ignored and the
environment variable wins instead. -/
theorem mcp_db_path_empty_arg_counterexample :
    get_grizabella_db_path (some "") [(GRIZABELLA_DB_PATH_ENV_VAR, "env_db")] =
      "env_db" ∧
    ("env_db" : String) ≠ "" := by
  exact ⟨rfl, by decide⟩

/-- **C9 (amended).** The MCP server resolves the database path as: the
`--db-path` argument when provided and non-empty; otherwise the value of the
`GRIZABELLA_DB_PATH` environment variable when set; otherwise the default
path `grizabella_mcp_db`. -/
theorem mcp_db_path_resolution_order (arg : Option String)
    (env : List (String × String)) :
    (∀ s, arg = some s → s ≠ "" → get_grizabella_db_path arg env = s) ∧
    ((arg = none ∨ arg = some "") →
      (∀ v, env.lookup GRIZABELLA_DB_PATH_ENV_VAR = some v →
        get_grizabella_db_path arg env = v) ∧
      (env.lookup GRIZABELLA_DB_PATH_ENV_VAR = none →
        get_grizabella_db_path arg env = DEFAULT_GRIZABELLA_DB_PATH)) := by
  constructor
  · intro s hs hne
    rw [hs, get_grizabella_db_path, if_pos hne]
  · intro harg
    constructor
    · intro v hv
      rcases harg with h | h <;> rw [h]
      · rw [get_grizabella_db_path, hv]; rfl
      · rw [get_grizabella_db_path, if_neg (by simp), hv]; rfl
    · intro hnone
      rcases harg with h | h <;> rw [h]
      · rw [get_grizabella_db_path, hnone]; rfl
      · rw [get_grizabella_db_path, if_neg (by simp), hnone]; rfl

/-- Witness for C9 (amended) at concrete inputs: a non-empty argument wins,
and with no argument and no environment variable the default is used. -/
theorem mcp_db_path_resolution_order_witness :
    get_grizabella_db_path (some "/data/db") [] = "/data/db" ∧
    get_grizabella_db_path none [] = DEFAULT_GRIZABELLA_DB_PATH := by
  have h1 := (mcp_db_path_resolution_order (some "/data/db") []).1 "/data/db"
    rfl (by decide)
  have h2 := (mcp_db_path_resolution_order none []).2 (Or.inl rfl)
  exact ⟨h1, h2.2 rfl⟩

end Grizabella
